import Mathlib

/-!
Shallow embedding of the kite JSON parser (src/main.rs): the lexer `Lex`,
the recursive-descent parser `Par`, and the fixed-capacity arena `Allocator`.

Rust panics (`todo!()`, `assert!`, out-of-bounds indexing) abort the process;
they are modelled by the `Fail.panic` outcome, kept distinct from the
recoverable `Result::Err(String)` values, modelled by `Fail.err`.  The
parser's general recursion is driven by an explicit fuel parameter; running
out of fuel yields the embedding-only marker `Fail.fuel`, which never occurs
in any of the runs examined below (all are evaluated to `ok`, `err` or
`panic`).
-/

namespace Kite

/-- Outcome of running a fallible/panicking piece of the Rust code. -/
inductive Fail where
  | panic (msg : String) : Fail
  | err (msg : String) : Fail
  | fuel : Fail
  deriving Repr, DecidableEq

/-- `enum Token` from src/main.rs (constructor names lowercased;
`false_`/`true_`/`null_` stand for Rust's `False`/`True`/`Null`). The
`Num` payload is Rust's `f64`, modelled by `Float`; since `Lex::num` is
`todo!()`, no `num` token is ever produced. -/
inductive Token where
  | str (s : String)
  | num (n : Float)
  | false_
  | true_
  | null_
  | lbrace
  | rbrace
  | lbracket
  | rbracket
  | comma
  | colon
  | eof
  | illegalIdent

/-- `matches!(self.cur, Token::RBracket)`. -/
def Token.isRBracket : Token → Bool
  | .rbracket => true
  | _ => false

/-- `matches!(self.cur, Token::RBrace)`. -/
def Token.isRBrace : Token → Bool
  | .rbrace => true
  | _ => false

/-- `matches!(self.cur, Token::Comma)`. -/
def Token.isComma : Token → Bool
  | .comma => true
  | _ => false

/-- `matches!(self.cur, Token::Colon)`. -/
def Token.isColon : Token → Bool
  | .colon => true
  | _ => false

/-- The whitespace characters skipped by `Lex::next_token`. -/
def isWhitespace (c : Char) : Bool :=
  c = ' ' || c = '\n' || c = '\t' || c = '\r'

/-- Rust's `char::is_alphanumeric`, used by `Lex::ident`.  Rust's predicate
is Unicode-wide; this model agrees with it on all ASCII characters, which
covers every input considered here. -/
def isAlphanumeric (c : Char) : Bool :=
  c.isAlpha || c.isDigit

/-- Body of `Lex::str` after the opening quote was consumed: Rust's
`take_while(|c| *c != '"')` collects characters up to (and consuming) the
closing quote, or up to end of input with no error.  Returns the collected
characters and the remaining stream. -/
def takeStr : List Char → List Char × List Char
  | [] => ([], [])
  | c :: rest =>
    if c = '"' then ([], rest)
    else
      let (s, r) := takeStr rest
      (c :: s, r)

/-- Character-collecting loop of `Lex::ident`: peeks, consuming characters
only while they satisfy `is_alphanumeric`; the first non-matching character
is left unconsumed. -/
def takeIdent : List Char → List Char × List Char
  | [] => ([], [])
  | c :: rest =>
    if isAlphanumeric c then
      let (s, r) := takeIdent rest
      (c :: s, r)
    else ([], c :: rest)

/-- `Lex::next_token`.  The lexer state `Peekable<Chars>` is the list of
remaining characters.  The digit branch calls `Lex::num`, which is
`todo!()` in the source, i.e. a panic. -/
def next_token : List Char → Except Fail (Token × List Char)
  | [] => .ok (.eof, [])
  | c :: rest =>
    if isWhitespace c then next_token rest
    else if c = '"' then
      let (s, r) := takeStr rest
      .ok (.str (String.mk s), r)
    else if c = ':' then .ok (.colon, rest)
    else if c = ',' then .ok (.comma, rest)
    else if c = '[' then .ok (.lbracket, rest)
    else if c = ']' then .ok (.rbracket, rest)
    else if c = '{' then .ok (.lbrace, rest)
    else if c = '}' then .ok (.rbrace, rest)
    else if c.isDigit then .error (.panic "not yet implemented")
    else
      let (s, r) := takeIdent (c :: rest)
      if String.mk s = "false" then .ok (.false_, r)
      else if String.mk s = "true" then .ok (.true_, r)
      else if String.mk s = "null" then .ok (.null_, r)
      else .ok (.illegalIdent, r)

/-- `n` further calls of `next_token`, threading the stream state: position
`0` is the immediate call, position `n + 1` first consumes one token. -/
def nthNextToken : Nat → List Char → Except Fail (Token × List Char)
  | 0, s => next_token s
  | n + 1, s =>
    match next_token s with
    | .ok (_, s') => nthNextToken n s'
    | .error e => .error e

/-- `struct Id<T>(usize, PhantomData<T>)`: a type-tagged index. -/
structure Id (T : Type) where
  idx : Nat
  deriving Repr, DecidableEq

/-- `Id::id`. -/
def Id.id (T : Type) (n : Nat) : Id T := ⟨n⟩

/-- `struct Allocator<T>`: `curr` is the next index, `size` the stored
limit, `vec` the pool contents. -/
structure Allocator (T : Type) where
  curr : Nat
  size : Nat
  vec : List T

/-- `Allocator::make`: `assert!(size > 0)` (panic on failure), then the
limit field is set to `size - 1` (the `Vec::with_capacity(size - 1)` call
only pre-reserves memory and has no semantic content beyond that field). -/
def Allocator.make (T : Type) (size : Nat) : Except Fail (Allocator T) :=
  if size > 0 then .ok { curr := 0, size := size - 1, vec := [] }
  else .error (.panic "assertion failed: size > 0")

/-- `Allocator::alloc`: `assert!(id < self.size)` (panic on failure), then
push the element and increment `curr`, returning `Id(id)`. -/
def Allocator.alloc {T : Type} (a : Allocator T) (el : T) :
    Except Fail (Allocator T × Id T) :=
  let id := a.curr
  if id < a.size then
    .ok ({ a with vec := a.vec ++ [el], curr := a.curr + 1 }, ⟨id⟩)
  else .error (.panic "assertion failed: id < self.size")

/-- `Allocator::fetch`: `&self.vec[id]`, an out-of-bounds index panics. -/
def Allocator.fetch {T : Type} (a : Allocator T) (i : Id T) : Except Fail T :=
  match a.vec.get? i.idx with
  | some v => .ok v
  | none => .error (.panic "index out of bounds")

/-- A sequence of `alloc` calls, collecting the returned handles. -/
def allocAll {T : Type} (a : Allocator T) :
    List T → Except Fail (Allocator T × List (Id T))
  | [] => .ok (a, [])
  | v :: vs => do
    let (a', i) ← a.alloc v
    let (a'', is) ← allocAll a' vs
    .ok (a'', i :: is)

/-- `enum JsonValue` (constructor names lowercased: `string`/`number`/
`bool`/`obj`/`list`/`null` for Rust's `String`/`Number`/`Bool`/`Object`/
`List`/`Null`).  The `HashMap<String, Id<JsonValue>>` of `Object` is
modelled as an association list with unique keys; `insertKV` below gives
it `HashMap::insert`'s replace-on-existing-key semantics. -/
inductive JsonValue where
  | string (s : String)
  | number (n : Float)
  | bool (b : Bool)
  | obj (m : List (String × Id JsonValue))
  | list (l : List (Id JsonValue))
  | null

/-- `HashMap::insert` on the association-list model: replaces the value of
an existing key (last write wins), otherwise appends the new binding. -/
def insertKV (m : List (String × Id JsonValue)) (k : String)
    (v : Id JsonValue) : List (String × Id JsonValue) :=
  match m with
  | [] => [(k, v)]
  | (k', v') :: rest =>
    if k' = k then (k, v) :: rest else (k', v') :: insertKV rest k v

/-- `struct Par`: current token, one token of lookahead, the lexer's
remaining characters, and the owned allocator. -/
structure Par where
  cur : Token
  nxt : Token
  lex : List Char
  mem : Allocator JsonValue

/-- `Par::advance`: pull one token from the lexer, shift `nxt` into `cur`
and the fresh token into `nxt`, returning the displaced old `cur`.  The
pull can panic (digit hits `Lex::num`'s `todo!()`). -/
def Par.advance (p : Par) : Except Fail (Token × Par) :=
  match next_token p.lex with
  | .ok (t, rest) => .ok (p.cur, { p with cur := p.nxt, nxt := t, lex := rest })
  | .error e => .error e

/-- `Par::expect_str`: take the string out of a `Str` current token and
advance; any other token is the recoverable error `Err("Key is not a
String")`. -/
def Par.expect_str (p : Par) : Except Fail (String × Par) :=
  match p.cur with
  | .str s => do
    let (_, p') ← p.advance
    .ok (s, p')
  | _ => .error (.err "Key is not a String")

mutual

/-- `Par::go_parse`.  The `RBracket`/`RBrace`/`Comma`/`Colon`/
`IllegalIdent` arms are `todo!()` in the source, i.e. panics; `Eof` is the
recoverable `Err("Reached EOF.")` returned before the trailing `advance`.
Every `Ok` arm falls through to a final `self.advance()`. -/
def go_parse (fuel : Nat) (p : Par) : Except Fail (JsonValue × Par) :=
  match fuel with
  | 0 => .error .fuel
  | fuel + 1 =>
    match p.cur with
    | .false_ => do
      let (_, p') ← p.advance
      .ok (.bool false, p')
    | .true_ => do
      let (_, p') ← p.advance
      .ok (.bool true, p')
    | .null_ => do
      let (_, p') ← p.advance
      .ok (.null, p')
    | .str s => do
      let (_, p') ← p.advance
      .ok (.string s, p')
    | .num n => do
      let (_, p') ← p.advance
      .ok (.number n, p')
    | .lbracket => do
      let (_, p1) ← p.advance
      let (elems, p2) ← parse_list_loop fuel p1 []
      let (_, p3) ← p2.advance
      .ok (.list elems, p3)
    | .rbracket => .error (.panic "not yet implemented")
    | .lbrace => do
      let (_, p1) ← p.advance
      let (fields, p2) ← parse_obj_loop fuel p1 []
      let (_, p3) ← p2.advance
      .ok (.obj fields, p3)
    | .rbrace => .error (.panic "not yet implemented")
    | .comma => .error (.panic "not yet implemented")
    | .colon => .error (.panic "not yet implemented")
    | .eof => .error (.err "Reached EOF.")
    | .illegalIdent => .error (.panic "not yet implemented")

/-- The `loop` of the `LBracket` arm of `Par::go_parse`: break on
`RBracket` (left as current token for the caller's final advance); skip a
`Comma` if present; otherwise parse one element, allocate it and push its
handle. -/
def parse_list_loop (fuel : Nat) (p : Par) (acc : List (Id JsonValue)) :
    Except Fail (List (Id JsonValue) × Par) :=
  match fuel with
  | 0 => .error .fuel
  | fuel + 1 =>
    if p.cur.isRBracket then .ok (acc, p)
    else do
      let p ← if p.cur.isComma then do
          let (_, p') ← p.advance
          pure p'
        else pure p
      let (e, p) ← go_parse fuel p
      let (mem', i) ← p.mem.alloc e
      parse_list_loop fuel { p with mem := mem' } (acc ++ [i])

/-- The `loop` of the `LBrace` arm of `Par::go_parse`: break on `RBrace`;
skip a `Comma` if present; otherwise read a key via `expect_str`, require
`Colon` (else `Err("Expected ':'.")`), parse the value, allocate it and
insert the binding. -/
def parse_obj_loop (fuel : Nat) (p : Par)
    (acc : List (String × Id JsonValue)) :
    Except Fail (List (String × Id JsonValue) × Par) :=
  match fuel with
  | 0 => .error .fuel
  | fuel + 1 =>
    if p.cur.isRBrace then .ok (acc, p)
    else do
      let p ← if p.cur.isComma then do
          let (_, p') ← p.advance
          pure p'
        else pure p
      let (key, p) ← p.expect_str
      let p ← if p.cur.isColon then do
          let (_, p') ← p.advance
          pure p'
        else .error (.err "Expected \x27:\x27.")
      let (val, p) ← go_parse fuel p
      let (mem', i) ← p.mem.alloc val
      parse_obj_loop fuel { p with mem := mem' } (insertKV acc key i)

end

/-- `Par::init`: prime `cur` and `nxt` from the lexer (panics propagate),
then `Allocator::make(mem)` (its assertion panics on `mem == 0`). -/
def Par.init (src : List Char) (mem : Nat) : Except Fail Par := do
  let (cur, rest) ← next_token src
  let (nxt, rest') ← next_token rest
  let m ← Allocator.make JsonValue mem
  .ok { cur := cur, nxt := nxt, lex := rest', mem := m }

/-- `Par::parse`: build the parser state and run `go_parse` once; on
success return the root value together with the populated allocator.
The fuel `2 * src.length + 4` is an embedding artifact bounding the
recursion; it is ample for every run examined below (each such run is
evaluated and never yields `Fail.fuel`). -/
def Par.parse (src : List Char) (mem : Nat) :
    Except Fail (JsonValue × Allocator JsonValue) := do
  let p ← Par.init src mem
  let (v, p') ← go_parse (2 * src.length + 4) p
  .ok (v, p'.mem)

end Kite

namespace Kite

/-- Behaviour of `allocAll` on any allocator whose `curr` equals its pool
length: the limit field never changes, each call appends exactly one value
(never mutating or removing earlier ones), and the returned handles are
the consecutive indices starting at the pool size before the first
append. -/
theorem allocAll_spec {T : Type} (vs : List T) : ∀ (a a' : Allocator T)
    (ids : List (Id T)), a.curr = a.vec.length →
    allocAll a vs = .ok (a', ids) →
    a'.size = a.size ∧ a'.curr = a.curr + vs.length ∧
    a'.vec = a.vec ++ vs ∧ a'.curr = a'.vec.length ∧
    ids = (List.range vs.length).map (fun i => ⟨a.curr + i⟩) := by
  induction vs with
  | nil =>
    intro a a' ids h e
    simp only [allocAll] at e
    obtain ⟨rfl, rfl⟩ : a' = a ∧ ids = [] := by
      cases e; exact ⟨rfl, rfl⟩
    simp [h]
  | cons v vs ih =>
    intro a a' ids h e
    simp only [allocAll, bind, Except.bind] at e
    cases halloc : a.alloc v with
    | error f => rw [halloc] at e; cases e
    | ok pr =>
      obtain ⟨a1, i⟩ := pr
      rw [halloc] at e
      dsimp only at e
      have hstep : a1 = { a with vec := a.vec ++ [v], curr := a.curr + 1 } ∧
          i = ⟨a.curr⟩ := by
        simp only [Allocator.alloc] at halloc
        by_cases hlt : a.curr < a.size
        · rw [if_pos hlt] at halloc; cases halloc; exact ⟨rfl, rfl⟩
        · rw [if_neg hlt] at halloc; cases halloc
      obtain ⟨ha1, hi⟩ := hstep
      have h1 : a1.curr = a1.vec.length := by simp [ha1, h]
      cases hrec : allocAll a1 vs with
      | error err => rw [hrec] at e; cases e
      | ok res =>
        obtain ⟨a2, is⟩ := res
        rw [hrec] at e
        dsimp only at e
        obtain ⟨rfl, rfl⟩ : a' = a2 ∧ ids = i :: is := by
          cases e; exact ⟨rfl, rfl⟩
        obtain ⟨e1, e2, e3, e4, e5⟩ := ih a1 a' is h1 hrec
        subst ha1 hi
        refine ⟨?_, ?_, ?_, e4, ?_⟩
        · rw [e1]
        · rw [e2]; simp only [List.length_cons]; omega
        · rw [e3]; simp
        · rw [e5]
          simp only [List.length_cons, List.range_succ_eq_map,
            List.map_cons, List.map_map]
          congr 1
          apply List.map_congr_left
          simp only [Function.comp_apply, Id.mk.injEq, List.mem_range]
          intro j hj
          omega

/-- C8: for every allocator state reachable through the public surface
(`make` then a sequence of successful `alloc` calls), the capacity fixed
at construction never grows, each `alloc` appended exactly one value and
returned the handle whose index is the pool size immediately before the
append, the handles are the strictly increasing sequence `0, 1, …`, and
every stored value is still present unchanged (the final pool is exactly
the allocated values in order). -/
theorem C8_allocator_invariants (T : Type) (c : Nat) (a0 a : Allocator T)
    (vs : List T) (ids : List (Id T))
    (hmake : Allocator.make T c = .ok a0)
    (hrun : allocAll a0 vs = .ok (a, ids)) :
    a.size = a0.size ∧ a.curr = vs.length ∧ a.vec = vs ∧
    a.curr = a.vec.length ∧
    ids = (List.range vs.length).map (fun i => ⟨i⟩) := by
  have h0 : a0 = ⟨0, c - 1, []⟩ := by
    simp only [Allocator.make] at hmake
    by_cases hc : c > 0
    · rw [if_pos hc] at hmake; cases hmake; rfl
    · rw [if_neg hc] at hmake; cases hmake
  obtain ⟨e1, e2, e3, e4, e5⟩ :=
    allocAll_spec vs a0 a ids (by simp [h0]) hrun
  rw [h0] at e2 e3 e5
  exact ⟨e1, by simpa using e2, by simpa using e3, e4, by simpa using e5⟩

/-- Witness for C8 at `make 3` followed by allocating `null` and
`bool true`. -/
theorem C8_allocator_invariants_witness :
    (⟨2, 2, [JsonValue.null, JsonValue.bool true]⟩
        : Allocator JsonValue).size = (⟨0, 2, []⟩ : Allocator JsonValue).size ∧
    (⟨2, 2, [JsonValue.null, JsonValue.bool true]⟩
        : Allocator JsonValue).curr = [JsonValue.null, JsonValue.bool true].length ∧
    (⟨2, 2, [JsonValue.null, JsonValue.bool true]⟩
        : Allocator JsonValue).vec = [JsonValue.null, JsonValue.bool true] ∧
    (⟨2, 2, [JsonValue.null, JsonValue.bool true]⟩
        : Allocator JsonValue).curr =
      (⟨2, 2, [JsonValue.null, JsonValue.bool true]⟩
        : Allocator JsonValue).vec.length ∧
    ([⟨0⟩, ⟨1⟩] : List (Id JsonValue)) =
      (List.range [JsonValue.null, JsonValue.bool true].length).map
        (fun i => ⟨i⟩) :=
  C8_allocator_invariants JsonValue 3 ⟨0, 2, []⟩
    ⟨2, 2, [JsonValue.null, JsonValue.bool true]⟩
    [JsonValue.null, JsonValue.bool true] [⟨0⟩, ⟨1⟩] rfl rfl

end Kite

namespace Kite

/-- C9: for every positive capacity, the inputs `{}` and `[]` parse
successfully to an empty Object and an empty List respectively, and the
returned allocator has performed zero `alloc` calls (`curr = 0`, empty
pool, limit field untouched at `c - 1`). -/
theorem C9_empty_containers (c : Nat) (hc : 0 < c) :
    Par.parse "\x7b\x7d".toList c =
      .ok (.obj [], ⟨0, c - 1, []⟩) ∧
    Par.parse "[]".toList c =
      .ok (.list [], ⟨0, c - 1, []⟩) := by
  obtain ⟨n, rfl⟩ : ∃ n, c = n + 1 := ⟨c - 1, (Nat.succ_pred_eq_of_pos hc).symm⟩
  have hmake : Allocator.make JsonValue (n + 1) = .ok ⟨0, n + 1 - 1, []⟩ := by
    rw [Allocator.make, if_pos (Nat.succ_pos n)]
  constructor
  · have h1 : next_token "\x7b\x7d".toList = .ok (.lbrace, "\x7d".toList) := rfl
    have h2 : next_token "\x7d".toList = .ok (.rbrace, []) := rfl
    have hinit : Par.init "\x7b\x7d".toList (n + 1) =
        .ok ⟨.lbrace, .rbrace, [], ⟨0, n + 1 - 1, []⟩⟩ := by
      simp only [Par.init, bind, Except.bind, h1, h2, hmake]
    simp only [Par.parse, bind, Except.bind, hinit]
    rfl
  · have h1 : next_token "[]".toList = .ok (.lbracket, "]".toList) := rfl
    have h2 : next_token "]".toList = .ok (.rbracket, []) := rfl
    have hinit : Par.init "[]".toList (n + 1) =
        .ok ⟨.lbracket, .rbracket, [], ⟨0, n + 1 - 1, []⟩⟩ := by
      simp only [Par.init, bind, Except.bind, h1, h2, hmake]
    simp only [Par.parse, bind, Except.bind, hinit]
    rfl

/-- Witness for C9 at capacity `1`. -/
theorem C9_empty_containers_witness :
    Par.parse "\x7b\x7d".toList 1 =
      .ok (.obj [], ⟨0, 1 - 1, []⟩) ∧
    Par.parse "[]".toList 1 =
      .ok (.list [], ⟨0, 1 - 1, []⟩) :=
  C9_empty_containers 1 (by decide)

/-- C10: whenever the head character is not `"`, not one of the six
structural characters, not an ASCII digit and not alphanumeric (and, being
the head, not whitespace — the claim speaks of the next non-whitespace
character), `next_token` returns `IllegalIdent` while consuming nothing,
so every repeated call returns that same token with the stream unchanged
and the lexer never reaches `Eof`. -/
theorem C10_illegal_ident_consumes_nothing (c : Char) (rest : List Char)
    (hws : isWhitespace c = false) (hq : c ≠ '"') (hcolon : c ≠ ':')
    (hcomma : c ≠ ',') (hlbk : c ≠ '[') (hrbk : c ≠ ']') (hlbr : c ≠ '{')
    (hrbr : c ≠ '}') (hd : c.isDigit = false)
    (ha : isAlphanumeric c = false) :
    next_token (c :: rest) = .ok (.illegalIdent, c :: rest) ∧
    ∀ n, nthNextToken n (c :: rest) = .ok (.illegalIdent, c :: rest) := by
  have h1 : next_token (c :: rest) = .ok (.illegalIdent, c :: rest) := by
    rw [next_token]
    rw [if_neg (by simp [hws]), if_neg hq, if_neg hcolon, if_neg hcomma,
      if_neg hlbk, if_neg hrbk, if_neg hlbr, if_neg hrbr,
      if_neg (by simp [hd])]
    rw [takeIdent, if_neg (by simp [ha])]
    rfl
  refine ⟨h1, ?_⟩
  intro n
  induction n with
  | zero => exact h1
  | succ n ih =>
    rw [nthNextToken, h1]
    exact ih

/-- Witness for C10: the would-be negative literal `-1` is lexed as
`IllegalIdent` with nothing consumed (never as a number), forever. -/
theorem C10_illegal_ident_consumes_nothing_witness :
    next_token ('-' :: ['1']) = .ok (.illegalIdent, '-' :: ['1']) ∧
    ∀ n, nthNextToken n ('-' :: ['1']) = .ok (.illegalIdent, '-' :: ['1']) :=
  C10_illegal_ident_consumes_nothing '-' ['1'] (by decide) (by decide)
    (by decide) (by decide) (by decide) (by decide) (by decide) (by decide)
    (by decide) (by decide)

/-- C1 fails on the code: `make(1)` passes its assertion but stores
`size - 1 = 0` as the allocation limit, so the pool constructed for
capacity `1` admits zero successful `alloc` calls (the first one panics),
and more generally `make(c)` admits only `c - 1` allocations — here
`make(2)` accepts one `alloc` and panics on the second. -/
theorem C1_make_off_by_one :
    Allocator.make JsonValue 1 = .ok ⟨0, 0, []⟩ ∧
    (⟨0, 0, []⟩ : Allocator JsonValue).alloc .null =
      .error (.panic "assertion failed: id < self.size") ∧
    Allocator.make JsonValue 2 = .ok ⟨0, 1, []⟩ ∧
    (⟨0, 1, []⟩ : Allocator JsonValue).alloc .null =
      .ok (⟨1, 1, [.null]⟩, ⟨0⟩) ∧
    (⟨1, 1, [.null]⟩ : Allocator JsonValue).alloc .null =
      .error (.panic "assertion failed: id < self.size") :=
  ⟨rfl, rfl, rfl, rfl, rfl⟩

/-- C2 fails on the code: parsing `[true]` (which needs one allocation,
i.e. required capacity 2 in the spec's counting) with capacity one less
aborts with the `assert!(id < self.size)` panic inside `Allocator::alloc`
— a crash, not a recoverable `CapacityExceeded` error in the parser's
result type (no such error value exists in the code). -/
theorem C2_capacity_exhaustion_is_a_panic :
    Par.parse "[true]".toList 1 =
      .error (.panic "assertion failed: id < self.size") := rfl

/-- C3 fails on the code: a leading comma `[,true]` is silently skipped
and the input parses successfully; a trailing comma in a list `[true,]`
reaches the `Token::RBracket => todo!()` arm and panics; a trailing comma
in an object (the claim's own example, with `true` in place of the
unlexable `1`) is rejected, but through `Err("Key is not a String")`, not
an UnexpectedToken error. -/
theorem C3_comma_rules_not_enforced :
    Par.parse "[,true]".toList 2 =
      .ok (.list [⟨0⟩], ⟨1, 1, [.bool true]⟩) ∧
    Par.parse "[true,]".toList 2 =
      .error (.panic "not yet implemented") ∧
    Par.parse "\x7b\"a\":true,\x7d".toList 2 =
      .error (.err "Key is not a String") :=
  ⟨rfl, rfl, rfl⟩

/-- C4 fails on the code: `[1]` is syntactically valid with total node
count 2 (root list plus one number), not exceeding capacity 2, yet parsing
panics while priming the lookahead because the digit branch of the lexer
calls `Lex::num`, which is `todo!()`. -/
theorem C4_valid_number_input_panics :
    Par.parse "[1]".toList 2 = .error (.panic "not yet implemented") := rfl

/-- C5 fails on the code: with a closing bracket, closing brace, bare
comma, bare colon or unrecognized identifier as the current token in value
position, `go_parse` hits a `todo!()` arm and panics instead of returning
an UnexpectedToken/IllegalIdentifier error; only end-of-stream is handled
as the claim states, with the recoverable `Err("Reached EOF.")`. -/
theorem C5_value_position_arms_panic :
    Par.parse "]".toList 1 = .error (.panic "not yet implemented") ∧
    Par.parse "\x7d".toList 1 = .error (.panic "not yet implemented") ∧
    Par.parse ",".toList 1 = .error (.panic "not yet implemented") ∧
    Par.parse ":".toList 1 = .error (.panic "not yet implemented") ∧
    Par.parse "@".toList 1 = .error (.panic "not yet implemented") ∧
    Par.parse "".toList 1 = .error (.err "Reached EOF.") :=
  ⟨rfl, rfl, rfl, rfl, rfl, rfl⟩

/-- C6 fails on the code: parsing `[1,2,3]` with capacity 4 panics in the
`todo!()` body of `Lex::num` as soon as the first digit is lexed, instead
of succeeding with three `Number` values. -/
theorem C6_number_example_panics :
    Par.parse "[1,2,3]".toList 4 =
      .error (.panic "not yet implemented") := rfl

/-- C7 fails on the code: the unterminated string `"abc` is lexed without
any error as the ordinary token `Str("abc")` and even parses successfully
as a root `String` value (no `UnterminatedString` exists), and the
malformed number `01` panics in `Lex::num`'s `todo!()` instead of failing
with `MalformedNumber`. -/
theorem C7_lexical_errors_missing :
    next_token "\"abc".toList = .ok (.str "abc", []) ∧
    Par.parse "\"abc".toList 1 = .ok (.string "abc", ⟨0, 0, []⟩) ∧
    next_token "01".toList = .error (.panic "not yet implemented") :=
  ⟨rfl, rfl, rfl⟩

end Kite
